import Mathlib

/-!
Shallow embedding of the dwmstatus daemon (src/dwmstatus-server.cpp) and its
companion client (src/dwmstatus-client.cpp).

Field cells are modelled by the byte sequence of their active range
`data[0..length)`; bytes are `Nat` code points. Shell commands are opaque: an
environment `String → List Nat` maps each command string to the byte stream its
child process writes to stdout during one invocation.
-/

namespace Dwmstatus

/-- Byte sequence of an ASCII string literal, used to transcribe the string
constants of the source. -/
def bytes (s : String) : List Nat :=
  s.data.map Char.toNat

/-- BUFFER_MAX_SIZE from the source: capacity of one field cell. -/
def BUFFER_MAX_SIZE : Nat := 255

/-- R_SIZE from the source: number of field slots. -/
def R_SIZE : Nat := 10

/-- ROOT_BUFFER_MAX_SIZE from the source: capacity passed to format_to_n. -/
def ROOT_BUFFER_MAX_SIZE : Nat := R_SIZE * BUFFER_MAX_SIZE

/-- SOCKET_PATH from the source. -/
def SOCKET_PATH : String := "/tmp/dwmstatus.socket"

/-- Slot indices from the source enum R_TIME..R_DATE. -/
def R_TIME : Fin 10 := 0
def R_LOAD : Fin 10 := 1
def R_TEMP : Fin 10 := 2
def R_VOL : Fin 10 := 3
def R_MIC : Fin 10 := 4
def R_MEM : Fin 10 := 5
def R_GOV : Fin 10 := 6
def R_LANG : Fin 10 := 7
def R_WTH : Fin 10 := 8
def R_DATE : Fin 10 := 9

/-- Global mutable state of the server process: the ten field cells
(`field_buffers`), the three function-local static toggler indices, and the
`running` flag. An index is modelled as `Bool` (`false` = 0, `true` = 1); the
source initializes each static `idx` to 1 and flips it with `idx = !idx`. -/
structure ServerState where
  cells : Fin 10 → List Nat
  lang_idx : Bool
  gov_idx : Bool
  mic_idx : Bool
  running : Bool

/-- State at process start: cells zero-initialized (empty active range), every
toggler index at 1, `running = true`. -/
def initState : ServerState :=
  { cells := fun _ => [], lang_idx := true, gov_idx := true,
    mic_idx := true, running := true }

/-- Overwrite one cell's active range (the effect of writing `data` and
`length` of one `FieldBuffer`). -/
def setCell (st : ServerState) (i : Fin 10) (v : List Nat) : ServerState :=
  { st with cells := Function.update st.cells i v }

/-- `read_all(fd, buf, nbytes)`: reads from the pipe until `nbytes` bytes have
arrived or EOF; on a stream of `output` it returns the first `nbytes` bytes. -/
def read_all (output : List Nat) (nbytes : Nat) : List Nat :=
  output.take nbytes

/-- `read_cmd_output`'s effect on the target cell: capture up to
BUFFER_MAX_SIZE bytes of the child's stdout via `read_all`, then
`if(len > 0 && buf[len-1] == '\x0a') buf[--len] = 0` strips exactly one
trailing newline (byte 10). -/
def read_cmd_output (output : List Nat) : List Nat :=
  let captured := read_all output BUFFER_MAX_SIZE
  if captured.getLast? = some 10 then captured.dropLast else captured

/-- `ltable` of toggle_lang: index 0 holds "US", index 1 holds "RO". -/
def ltable (i : Bool) : List Nat :=
  if i then bytes "RO" else bytes "US"

/-- `freq_table` of toggle_cpu_gov: index 0 holds "*", index 1 holds "$". -/
def freq_table (i : Bool) : List Nat :=
  if i then bytes "$" else bytes "*"

/-- `mic_status_table` of toggle_mic: index 0 holds "0", index 1 holds "1". -/
def mic_status_table (i : Bool) : List Nat :=
  if i then bytes "1" else bytes "0"

/-- toggle_lang as a transition on (private index, target cell): flip the
index, then memcpy `ltable[idx]` (2 bytes) into the cell and set length 2. -/
def toggle_lang (s : Bool × List Nat) : Bool × List Nat :=
  let i := !s.1
  (i, ltable i)

/-- toggle_cpu_gov as a transition on (private index, target cell): flip the
index, then write `freq_table[idx]` (1 byte) and set length 1. -/
def toggle_cpu_gov (s : Bool × List Nat) : Bool × List Nat :=
  let i := !s.1
  (i, freq_table i)

/-- toggle_mic as a transition on (private index, target cell): flip the
index, then write `mic_status_table[idx]` (1 byte) and set length 1. -/
def toggle_mic (s : Bool × List Nat) : Bool × List Nat :=
  let i := !s.1
  (i, mic_status_table i)

/-- The three builtin handler function pointers of `builtin_updates`. -/
inductive BuiltinKind where
  | lang
  | gov
  | mic
deriving DecidableEq, Repr

/-- The two meta actions of `meta_updates`: `run_meta_update` instantiated
with `shell_updates` and an index pack, and `terminator`. -/
inductive MetaAction where
  | refresh (idxs : List (Fin 7))
  | terminator
deriving DecidableEq, Repr

/-- `FieldUpdate`: the tagged union of the source, with the three shapes
Shell (command string + target cell), Builtin (handler + target cell) and
Meta (action). -/
inductive FieldUpdate where
  | shell (command : String) (target : Fin 10)
  | builtin (handler : BuiltinKind) (target : Fin 10)
  | meta (action : MetaAction)
deriving DecidableEq, Repr

/-- The seven (command, target) pairs of `shell_updates`, in declaration
order, with the exact command strings of the source. -/
def shell_table : List (String × Fin 10) :=
  [ ("date +%H:%M:%S", R_TIME),
    ("uptime | grep -wo \"average: .*,\" | cut --delimiter=' ' -f2 | head -c4", R_LOAD),
    ("sensors | grep -F \"Core 0\" | awk '\x7bprint $3\x7d' | cut -c2-5", R_TEMP),
    ("amixer sget Master | tail -n1 | get-from-to '[' ']' '--amixer'", R_VOL),
    ("xss-get-mem", R_MEM),
    ("date \"+%d.%m.%Y\"", R_DATE),
    ("curl wttr.in/Bucharest?format=1 2>/dev/null | get-from '+'", R_WTH) ]

/-- `shell_updates`: the shell descriptors built from `shell_table`. -/
def shell_updates : List FieldUpdate :=
  shell_table.map fun p => .shell p.1 p.2

/-- `builtin_updates`: toggle_lang→R_LANG, toggle_cpu_gov→R_GOV,
toggle_mic→R_MIC, in declaration order. -/
def builtin_updates : List FieldUpdate :=
  [ .builtin .lang R_LANG,
    .builtin .gov R_GOV,
    .builtin .mic R_MIC ]

/-- `meta_updates`: position 0 is `run_meta_update<shell_updates, 0, 1, 2, 4>`,
position 1 is `terminator`. -/
def meta_updates : List FieldUpdate :=
  [ .meta (.refresh [0, 1, 2, 4]),
    .meta .terminator ]

/-- `real_time_updates`: the request-id routing table of the source. -/
def real_time_updates : List FieldUpdate :=
  [ meta_updates.get ⟨1, by decide⟩,
    shell_updates.get ⟨3, by decide⟩,
    shell_updates.get ⟨6, by decide⟩,
    builtin_updates.get ⟨0, by decide⟩,
    builtin_updates.get ⟨1, by decide⟩,
    builtin_updates.get ⟨2, by decide⟩,
    meta_updates.get ⟨0, by decide⟩ ]

/-- Effect of one shell update: run the command through the shell and store
the captured, newline-trimmed output in the target cell (read_cmd_output). -/
def run_shell (env : String → List Nat) (st : ServerState)
    (cmd : String) (target : Fin 10) : ServerState :=
  setCell st target (read_cmd_output (env cmd))

/-- Effect of one builtin update on the server state. -/
def run_builtin (st : ServerState) (b : BuiltinKind) (target : Fin 10) :
    ServerState :=
  match b with
  | .lang =>
      let r := toggle_lang (st.lang_idx, st.cells target)
      { setCell st target r.2 with lang_idx := r.1 }
  | .gov =>
      let r := toggle_cpu_gov (st.gov_idx, st.cells target)
      { setCell st target r.2 with gov_idx := r.1 }
  | .mic =>
      let r := toggle_mic (st.mic_idx, st.cells target)
      { setCell st target r.2 with mic_idx := r.1 }

/-- `run_update`: switch on the descriptor type. A `refresh` meta action runs
`run_update` on the designated `shell_updates` entries in pack order; since
every entry of that table is a Shell descriptor, each sub-dispatch is
`run_shell` on the corresponding `shell_table` pair. `terminator` prints a
diagnostic and clears `running`. -/
def run_update (env : String → List Nat) (st : ServerState) :
    FieldUpdate → ServerState
  | .shell cmd target => run_shell env st cmd target
  | .builtin b target => run_builtin st b target
  | .meta (.refresh idxs) =>
      idxs.foldl
        (fun s i => run_shell env s (shell_table.get i).1 (shell_table.get i).2)
        st
  | .meta .terminator => { st with running := false }

/-- The separator bytes " |" between two fields of STATUS_FMT. -/
def fieldSep : List Nat := [32, 124]

/-- The byte sequence produced by formatting STATUS_FMT with the ten cells'
active ranges, before the format_to_n truncation. -/
def statusBytes (st : ServerState) : List Nat :=
  [91] ++ st.cells 0 ++ fieldSep ++ st.cells 1 ++ fieldSep ++ st.cells 2 ++
    fieldSep ++ st.cells 3 ++ fieldSep ++ st.cells 4 ++ fieldSep ++
    st.cells 5 ++ fieldSep ++ st.cells 6 ++ fieldSep ++ st.cells 7 ++
    fieldSep ++ st.cells 8 ++ fieldSep ++ st.cells 9 ++ [93]

/-- `update_screen`: render the status line into the root buffer
(format_to_n writes at most ROOT_BUFFER_MAX_SIZE bytes) and hand the
null-terminated text to the publish sink; the published text is returned. -/
def update_screen (st : ServerState) : List Nat :=
  (statusBytes st).take ROOT_BUFFER_MAX_SIZE

/-- Result of `handle_received` on one request: the new global state, the
texts published (one `update_screen` call each, in order), and whether the
out-of-bounds diagnostic was printed to stderr. -/
structure HandleResult where
  st : ServerState
  pubs : List (List Nat)
  logged : Bool

/-- `handle_received(id)`: if `id >= real_time_updates.size()` print a
diagnostic and return; otherwise dispatch `run_update` on the routed
descriptor, then call `update_screen`. -/
def handle_received (env : String → List Nat) (st : ServerState)
    (id : Nat) : HandleResult :=
  if h : id < real_time_updates.length then
    let st1 := run_update env st (real_time_updates.get ⟨id, h⟩)
    { st := st1, pubs := [update_screen st1], logged := false }
  else
    { st := st, pubs := [], logged := true }

/-- `init_statusbar`: run every shell update once, then every builtin update
once, then publish once; returns the resulting state and the published text. -/
def init_statusbar (env : String → List Nat) : ServerState × List Nat :=
  let st1 := shell_updates.foldl (fun s u => run_update env s u) initState
  let st2 := builtin_updates.foldl (fun s u => run_update env s u) st1
  (st2, update_screen st2)

/-- State of the server after the startup pass under environment `env0` and
after handling the listed requests in order, each request carrying the
environment (shell outputs) in effect when it is handled. -/
def runServer (env0 : String → List Nat)
    (reqs : List ((String → List Nat) × Nat)) : ServerState :=
  reqs.foldl (fun st r => (handle_received r.1 st r.2).st)
    (init_statusbar env0).1

/-- Externally visible actions on the fatal exit paths of the server. -/
inductive SysAction where
  | unlinkPath (path : String)
  | perrorMsg (msg : String)
  | exitWith (code : Nat)
deriving DecidableEq, Repr

/-- `perror_exit(why)`: perror then exit(EXIT_FAILURE). -/
def perror_exit (why : String) : List SysAction :=
  [.perrorMsg why, .exitWith 1]

/-- Action trace of the server loop when `read` on the socket returns an
error: `unlink(SOCKET_PATH); perror_exit("read")`. -/
def read_fail_trace : List SysAction :=
  .unlinkPath SOCKET_PATH :: perror_exit "read"

/-- Action trace when `pipe` fails in read_cmd_output:
`die(rc < 0, "pipe")` calls perror_exit directly. -/
def pipe_fail_trace : List SysAction :=
  perror_exit "pipe"

/-- Action trace when `fork` fails in create_child:
`die(child_pid < 0, "fork")` calls perror_exit directly. -/
def fork_fail_trace : List SysAction :=
  perror_exit "fork"

/-! The client (src/dwmstatus-client.cpp). -/

/-- The two socket types the client could request in its `socket(2)` call. -/
inductive SockType where
  | stream
  | dgram
deriving DecidableEq, Repr

/-- Failure modes of the modelled `std::stoul`: no conversion possible
(`std::invalid_argument`) or a value out of `unsigned long` range
(`std::out_of_range`). -/
inductive StoulErr where
  | invalidArgument
  | outOfRange
deriving DecidableEq, Repr

/-- Outcome of the modelled `std::stoul` call. -/
inductive StoulResult where
  | ok (v : Nat)
  | err (e : StoulErr)
deriving DecidableEq, Repr

/-- Value of a digit character list read in base 10. -/
def digitsVal (l : List Char) : Nat :=
  l.foldl (fun a c => a * 10 + (c.toNat - 48)) 0

/-- Consume the optional single sign character accepted by strtoul; returns
whether the value is to be negated, and the remaining characters. -/
def stripSign (l : List Char) : Bool × List Char :=
  match l with
  | c :: rest =>
      if c = '-' then (true, rest)
      else if c = '+' then (false, rest)
      else (false, c :: rest)
  | [] => (false, [])

/-- `std::stoul(s)` with the default base 10 on a 64-bit `unsigned long`:
skip leading whitespace, accept one optional sign, then parse the longest
digit prefix; no digits raises invalid_argument, a magnitude beyond
`2^64 - 1` raises out_of_range, and a minus sign negates the value in
unsigned (mod `2^64`) arithmetic. -/
def stoulModel (s : String) : StoulResult :=
  let signed := stripSign (s.data.dropWhile Char.isWhitespace)
  let digits := signed.2.takeWhile Char.isDigit
  if digits.isEmpty then .err .invalidArgument
  else
    let v := digitsVal digits
    if v ≥ 2 ^ 64 then .err .outOfRange
    else .ok (if signed.1 then (2 ^ 64 - v) % 2 ^ 64 else v)

/-- Externally visible actions of the client process, in program order. -/
inductive ClientAction where
  | socketCall (t : SockType)
  | connectCall (path : String)
  | writeCall (value : Nat)
  | printUsage
  | printParseErr
  | perrorMsg (msg : String)
  | closeCall
  | exitWith (code : Nat)
  | abortTerminate
deriving DecidableEq, Repr

/-- Success/failure of the client's three fallible system calls. -/
structure ClientEnv where
  socket_ok : Bool
  connect_ok : Bool
  write_ok : Bool

/-- The client's `main`, as the trace of its visible actions. `args` is the
argument vector without the program name (so `argc = args.length + 1`). The
source: check `argc != 2`; `socket(AF_UNIX, SOCK_STREAM, 0)`; `connect` to
SOCKET_PATH; `num = std::stoul(argv[1])` catching only
`std::invalid_argument` (an uncaught `std::out_of_range` terminates the
process abnormally); the assignment narrows to `std::uint32_t`, i.e. takes
the value mod `2^32`; `write` the 4-byte id; `close`; return 0. -/
def client_main (args : List String) (env : ClientEnv) : List ClientAction :=
  if h : args.length = 1 then
    .socketCall .stream ::
    (if env.socket_ok then
      .connectCall SOCKET_PATH ::
      (if env.connect_ok then
        match stoulModel (args.get ⟨0, by omega⟩) with
        | .err .invalidArgument => [.printParseErr, .exitWith 1]
        | .err .outOfRange => [.abortTerminate]
        | .ok v =>
          .writeCall (v % 2 ^ 32) ::
          (if env.write_ok then [.closeCall, .exitWith 0]
           else [.perrorMsg "write", .exitWith 1])
      else [.perrorMsg "connect", .exitWith 1])
    else [.perrorMsg "socket", .exitWith 1])
  else
    [.printUsage, .exitWith 1]

/-! Auxiliary configurations used by concrete scenarios. -/

/-- Name of each field slot, in enum order. -/
def slotName : Fin 10 → String
  | 0 => "TIME"
  | 1 => "LOAD"
  | 2 => "TEMP"
  | 3 => "VOL"
  | 4 => "MIC"
  | 5 => "MEM"
  | 6 => "GOV"
  | 7 => "LANG"
  | 8 => "WTH"
  | 9 => "DATE"

/-- Environment in which every shell command is stubbed to `echo` the name of
its slot: the command's stdout is the slot name followed by one newline. -/
def stubEnv (cmd : String) : List Nat :=
  match shell_table.find? (fun p => p.1 = cmd) with
  | some p => bytes (slotName p.2) ++ [10]
  | none => []

/-- What §4.2 of the specification literally prescribes for the shell runner:
capture up to capacity bytes of the FIRST LINE of the output, trimming the
one trailing newline. Stated for comparison with `read_cmd_output`, which is
translated from the source. -/
def specFirstLineCapture (output : List Nat) : List Nat :=
  (output.takeWhile (fun b => b ≠ 10)).take BUFFER_MAX_SIZE

/-- A byte stream forming a single line: a newline byte may occur at most as
the very last byte. All outputs of well-behaved one-line shell commands have
this shape. -/
def lineOutput (out : List Nat) : Prop :=
  ∀ b ∈ out.dropLast, b ≠ 10

/-- An environment whose every command output is a single line. -/
def lineEnv (env : String → List Nat) : Prop :=
  ∀ cmd, lineOutput (env cmd)

end Dwmstatus

namespace Dwmstatus

/-! Helper lemmas shared by the claim theorems. -/

/-- Reading a cell after `setCell`. -/
theorem setCell_cells (st : ServerState) (i : Fin 10) (v : List Nat)
    (j : Fin 10) :
    (setCell st i v).cells j = if j = i then v else st.cells j := by
  simp [setCell, Function.update_apply]

/-- The captured, trimmed output never exceeds the cell capacity. -/
theorem read_cmd_output_length_le (output : List Nat) :
    (read_cmd_output output).length ≤ 255 := by
  simp only [read_cmd_output, read_all, BUFFER_MAX_SIZE]
  split
  · calc ((output.take 255).dropLast).length ≤ (output.take 255).length :=
          (List.dropLast_eq_take _ ▸ (output.take 255).length_take _ ▸
            Nat.min_le_right _ _)
        _ ≤ 255 := output.length_take 255 ▸ Nat.min_le_left _ _
  · exact output.length_take 255 ▸ Nat.min_le_left _ _

/-- Membership in a shorter take implies membership in a longer one. -/
theorem mem_take_mono {l : List Nat} {a b : Nat} (hab : a ≤ b) {x : Nat}
    (hx : x ∈ l.take a) : x ∈ l.take b := by
  have : l.take a = (l.take b).take a := by
    rw [List.take_take, Nat.min_eq_left hab]
  exact List.take_subset _ _ (this ▸ hx)

/-- Membership in the dropLast of a take implies membership in the dropLast
of the whole list. -/
theorem mem_dropLast_take {l : List Nat} {n : Nat} {x : Nat}
    (hx : x ∈ (l.take n).dropLast) : x ∈ l.dropLast := by
  rw [List.dropLast_eq_take, List.take_take] at hx
  rw [List.dropLast_eq_take]
  refine mem_take_mono ?_ hx
  have h1 : (l.take n).length = min n l.length := List.length_take ..
  have h2 : min n l.length ≤ l.length := Nat.min_le_right _ _
  omega

/-- An element of a list is in its dropLast or is reported by getLast?. -/
theorem mem_dropLast_or_getLast {l : List Nat} {x : Nat} (hx : x ∈ l) :
    x ∈ l.dropLast ∨ l.getLast? = some x := by
  have hne : l ≠ [] := by rintro rfl; exact absurd hx (by simp)
  have := List.dropLast_append_getLast hne
  rw [← this] at hx
  rcases List.mem_append.1 hx with h | h
  · exact .inl h
  · right
    have hx2 : x = l.getLast hne := by simpa using h
    rw [List.getLast?_eq_getLast l hne, hx2]

/-- On a single-line output the captured, trimmed cell content is free of
newline bytes: the trailing newline, if captured, is stripped, and no other
newline can occur. -/
theorem read_cmd_output_no_newline {output : List Nat}
    (h : lineOutput output) : 10 ∉ read_cmd_output output := by
  simp only [read_cmd_output, read_all, BUFFER_MAX_SIZE]
  intro hmem
  split at hmem
  · exact h 10 (mem_dropLast_take hmem) rfl
  · rcases mem_dropLast_or_getLast hmem with h10 | h10
    · exact h 10 (mem_dropLast_take h10) rfl
    · exact absurd h10 (by assumption)

end Dwmstatus

namespace Dwmstatus

/-! Claim theorems. -/

/-- C3: the routing table sends id 0 to the terminator meta action (which
clears the running flag), id 1 to the volume shell update (entry 3 of the
shell table), id 2 to the weather shell update (entry 6), ids 3, 4, 5 to the
language, governor and microphone builtins, and id 6 to the compound meta
update, which re-runs shell entries 0, 1, 2, 4 — TIME, LOAD, TEMP, MEM — in
that declared order. -/
theorem routing_table_spec :
    real_time_updates.length = 7 ∧
    real_time_updates.get ⟨0, by decide⟩ = .meta .terminator ∧
    real_time_updates.get ⟨1, by decide⟩ =
      .shell "amixer sget Master | tail -n1 | get-from-to '[' ']' '--amixer'" R_VOL ∧
    real_time_updates.get ⟨2, by decide⟩ =
      .shell "curl wttr.in/Bucharest?format=1 2>/dev/null | get-from '+'" R_WTH ∧
    real_time_updates.get ⟨3, by decide⟩ = .builtin .lang R_LANG ∧
    real_time_updates.get ⟨4, by decide⟩ = .builtin .gov R_GOV ∧
    real_time_updates.get ⟨5, by decide⟩ = .builtin .mic R_MIC ∧
    real_time_updates.get ⟨6, by decide⟩ = .meta (.refresh [0, 1, 2, 4]) ∧
    (∀ env st, run_update env st (.meta .terminator) =
      { st with running := false }) ∧
    (∀ env st, run_update env st (.meta (.refresh [0, 1, 2, 4])) =
      run_shell env
        (run_shell env
          (run_shell env
            (run_shell env st "date +%H:%M:%S" R_TIME)
            "uptime | grep -wo \"average: .*,\" | cut --delimiter=' ' -f2 | head -c4"
            R_LOAD)
          "sensors | grep -F \"Core 0\" | awk '\x7bprint $3\x7d' | cut -c2-5" R_TEMP)
        "xss-get-mem" R_MEM) :=
  ⟨rfl, by decide, by decide, by decide, by decide, by decide, by decide,
   by decide, fun env st => rfl, fun env st => rfl⟩

/-- C5 counterexample: with every shell command stubbed to echo the name of
its slot, the line published by the startup pass is not the one the claim
names — the claim misplaces the MIC, MEM and LANG slots of the enum order. -/
theorem startup_status_line_claim_false :
    (init_statusbar stubEnv).2 ≠
      bytes "[TIME |LOAD |TEMP |VOL |MEM |US |* |0 |WTH |DATE]" := by
  decide

/-- C5 (amended): with every shell command stubbed to echo the name of its
slot, the startup pass (every shell update once, then every builtin update
once, then one publication) publishes exactly
"[TIME |LOAD |TEMP |VOL |0 |MEM |* |US |WTH |DATE]": the slot order is the
enum order TIME, LOAD, TEMP, VOL, MIC, MEM, GOV, LANG, WTH, DATE, and the
builtins toggle once from index 1 to 0, yielding US, * and 0. -/
theorem startup_status_line :
    (init_statusbar stubEnv).2 =
      bytes "[TIME |LOAD |TEMP |VOL |0 |MEM |* |US |WTH |DATE]" := by
  decide

/-- C6 counterexample: from the pristine initial state of toggle_lang — a
reachable state: private index 1, target cell zero-initialized and empty —
two consecutive invocations do not restore the cell: they leave "RO" in it. -/
theorem toggler_initial_state_counterexample :
    toggle_lang (toggle_lang (true, [])) = (true, bytes "RO") ∧
    toggle_lang (toggle_lang (true, [])) ≠ (true, []) := by
  decide

/-- C6 (amended): for each builtin handler, two consecutive invocations
always restore the private toggle index, and they restore the full
(index, cell) state from every state in which the handler has been invoked
at least once before; from the pristine initial state, whose cell does not
yet hold the label for the current index, the cell is not restored. -/
theorem toggler_double_invocation (s : Bool × List Nat) :
    (toggle_lang (toggle_lang s)).1 = s.1 ∧
    toggle_lang (toggle_lang (toggle_lang s)) = toggle_lang s ∧
    (toggle_cpu_gov (toggle_cpu_gov s)).1 = s.1 ∧
    toggle_cpu_gov (toggle_cpu_gov (toggle_cpu_gov s)) = toggle_cpu_gov s ∧
    (toggle_mic (toggle_mic s)).1 = s.1 ∧
    toggle_mic (toggle_mic (toggle_mic s)) = toggle_mic s := by
  obtain ⟨b, l⟩ := s
  cases b <;>
    simp [toggle_lang, toggle_cpu_gov, toggle_mic, ltable, freq_table,
      mic_status_table]

/-- C7: a request whose id is outside 0..6 changes no field cell, leaves the
running flag (and the toggler indices) unchanged, publishes nothing, and only
prints the out-of-bounds diagnostic, so the serving loop continues. -/
theorem out_of_range_request_ignored (env : String → List Nat)
    (st : ServerState) (id : Nat) (h : 7 ≤ id) :
    handle_received env st id = ⟨st, [], true⟩ := by
  have hlen : real_time_updates.length = 7 := rfl
  unfold handle_received
  rw [dif_neg (by omega)]

/-- Witness for C7 at the smallest out-of-range id, 7. -/
theorem out_of_range_request_ignored_witness :
    7 ≤ 7 ∧ handle_received (fun _ => []) initState 7 = ⟨initState, [], true⟩ :=
  ⟨by decide, out_of_range_request_ignored (fun _ => []) initState 7 (by decide)⟩

/-- C8 counterexample: on the pipe-creation failure path the process exits
through perror_exit without unlinking the socket path. -/
theorem pipe_failure_skips_unlink :
    SysAction.unlinkPath SOCKET_PATH ∉ pipe_fail_trace := by
  decide

/-- C8 (amended): when the socket read fails with an error the server unlinks
the socket path, prints a diagnostic and exits nonzero; when pipe creation or
fork fails it prints a diagnostic and exits nonzero, but does not unlink the
socket path. -/
theorem fatal_error_exit_traces :
    SysAction.unlinkPath SOCKET_PATH ∈ read_fail_trace ∧
    SysAction.perrorMsg "read" ∈ read_fail_trace ∧
    SysAction.exitWith 1 ∈ read_fail_trace ∧
    SysAction.perrorMsg "pipe" ∈ pipe_fail_trace ∧
    SysAction.exitWith 1 ∈ pipe_fail_trace ∧
    SysAction.unlinkPath SOCKET_PATH ∉ pipe_fail_trace ∧
    SysAction.perrorMsg "fork" ∈ fork_fail_trace ∧
    SysAction.exitWith 1 ∈ fork_fail_trace ∧
    SysAction.unlinkPath SOCKET_PATH ∉ fork_fail_trace := by
  decide

end Dwmstatus

namespace Dwmstatus

/-- getLast? reporting a value implies membership. -/
theorem mem_of_getLastEq {l : List Nat} {a : Nat} (h : l.getLast? = some a) :
    a ∈ l := by
  have hne : l ≠ [] := by
    rintro rfl
    simp at h
  have := List.getLast?_eq_getLast l hne
  rw [this] at h
  obtain rfl : l.getLast hne = a := by simpa using h
  exact List.getLast_mem hne

/-- Taking a prefix is idempotent through its own length. -/
theorem take_eq_take_length (l : List Nat) (k : Nat) :
    l.take k = l.take ((l.take k).length) := by
  rcases Nat.le_total k l.length with h | h
  · rw [List.length_take, Nat.min_eq_left h]
  · rw [List.length_take, Nat.min_eq_right h, List.take_of_length_le h,
      List.take_of_length_le (Nat.le_refl _)]

/-- C1 counterexample: handling the terminator request id 0 invokes the
publish sink once, not zero times — `handle_received` calls `update_screen`
unconditionally after dispatching any in-range id, the terminator included. -/
theorem terminator_request_publishes :
    (handle_received (fun _ => []) initState 0).pubs.length = 1 ∧
    (handle_received (fun _ => []) initState 0).pubs.length ≠ 0 := by
  decide

/-- C1 (amended): for every request id in 0..6 — including the terminator
id 0 — handling the request invokes the publish sink exactly once, and the
published text renders the state reached after the dispatched update
(including all sub-updates of a meta update) has completed. -/
theorem handle_received_valid_publishes (env : String → List Nat)
    (st : ServerState) (id : Nat) (h : id < 7) :
    (handle_received env st id).pubs =
      [update_screen (handle_received env st id).st] := by
  unfold handle_received
  rw [dif_pos (show id < real_time_updates.length from h)]

/-- Witness for C1's amended theorem at the terminator id 0. -/
theorem handle_received_valid_publishes_witness :
    0 < 7 ∧
    (handle_received (fun _ => []) initState 0).pubs =
      [update_screen (handle_received (fun _ => []) initState 0).st] :=
  ⟨by decide,
   handle_received_valid_publishes (fun _ => []) initState 0 (by decide)⟩

/-- C4 counterexample: the shell runner does not capture only the first line:
on the output "a\x0ab" it stores all three bytes while the first line is just
"a"; and an output of 256 bytes whose 255th byte is a newline stores 254
bytes, not 255. -/
theorem read_cmd_output_multiline_counterexample :
    read_cmd_output [97, 10, 98] = [97, 10, 98] ∧
    specFirstLineCapture [97, 10, 98] = [97] ∧
    read_cmd_output [97, 10, 98] ≠ specFirstLineCapture [97, 10, 98] ∧
    (read_cmd_output (List.replicate 254 97 ++ [10, 98])).length = 254 := by
  set_option maxRecDepth 4000 in decide

/-- C4 (amended): the shell runner captures up to 255 bytes of the whole
output — a byte prefix, not only the first line — and strips exactly one
trailing newline from the captured bytes: the result is always a prefix of
the output of length at most 255; an output of at most 255 bytes with no
newline is stored in full; an output of 256 or more bytes stores exactly the
first 255 bytes provided those contain no newline (a newline as the 255th
byte is stripped); a trailing newline of a fully captured output is removed;
the single newline "\x0a" yields the empty cell; no other trimming occurs. -/
theorem read_cmd_output_capture_spec (output : List Nat) :
    read_cmd_output output = output.take ((read_cmd_output output).length) ∧
    (read_cmd_output output).length ≤ 255 ∧
    (10 ∉ output → output.length ≤ 255 → read_cmd_output output = output) ∧
    (256 ≤ output.length → 10 ∉ output.take 255 →
      read_cmd_output output = output.take 255) ∧
    (output.getLast? = some 10 → output.length ≤ 255 →
      read_cmd_output output = output.dropLast) ∧
    read_cmd_output [10] = [] := by
  refine ⟨?_, read_cmd_output_length_le output, ?_, ?_, ?_, by decide⟩
  · simp only [read_cmd_output, read_all, BUFFER_MAX_SIZE]
    split
    · rw [List.dropLast_eq_take, List.take_take, List.length_take,
        List.length_take]
      have h1 : min 255 output.length - 1 ≤ 255 := by omega
      rw [Nat.min_eq_left h1,
        Nat.min_eq_left (show 255 ⊓ output.length - 1 ≤ output.length by omega)]
    · exact take_eq_take_length output 255
  · intro h10 hle
    simp only [read_cmd_output, read_all, BUFFER_MAX_SIZE]
    rw [List.take_of_length_le hle, if_neg]
    intro hlast
    exact h10 (mem_of_getLastEq hlast)
  · intro _ h10
    simp only [read_cmd_output, read_all, BUFFER_MAX_SIZE]
    rw [if_neg]
    intro hlast
    exact h10 (mem_of_getLastEq hlast)
  · intro hlast hle
    simp only [read_cmd_output, read_all, BUFFER_MAX_SIZE]
    rw [List.take_of_length_le hle, if_pos hlast]

/-- Witness for C4's amended theorem: the two-byte newline-free output
"Hi" of length at most 255 is stored in full. -/
theorem read_cmd_output_capture_spec_witness :
    10 ∉ [72, 105] ∧ [72, 105].length ≤ 255 ∧
    read_cmd_output [72, 105] = [72, 105] :=
  ⟨by decide, by decide,
   (read_cmd_output_capture_spec [72, 105]).2.2.1 (by decide) (by decide)⟩

end Dwmstatus

namespace Dwmstatus

/-- A cell-content predicate preserved by one dispatched update, provided it
holds of the captured output of every command of the environment and of every
toggler label. -/
theorem run_update_cell_inv (P : List Nat → Prop)
    (hlt : ∀ i, P (ltable i)) (hft : ∀ i, P (freq_table i))
    (hmt : ∀ i, P (mic_status_table i))
    (env : String → List Nat)
    (henv : ∀ cmd, P (read_cmd_output (env cmd)))
    (st : ServerState) (hst : ∀ i, P (st.cells i)) (u : FieldUpdate) :
    ∀ i, P ((run_update env st u).cells i) := by
  cases u with
  | shell cmd t =>
      intro i
      simp only [run_update, run_shell]
      rw [setCell_cells]
      split
      · exact henv cmd
      · exact hst i
  | builtin b t =>
      intro i
      cases b <;>
        · simp only [run_update, run_builtin, toggle_lang, toggle_cpu_gov,
            toggle_mic]
          rw [setCell_cells]
          split
          · first
              | exact hlt _
              | exact hft _
              | exact hmt _
          · exact hst i
  | meta a =>
      cases a with
      | terminator => exact hst
      | refresh idxs =>
          simp only [run_update]
          induction idxs generalizing st with
          | nil => exact hst
          | cons j js ih =>
              refine ih _ ?_
              intro i
              simp only [run_shell]
              rw [setCell_cells]
              split
              · exact henv _
              · exact hst i

/-- A cell-content predicate is preserved by folding a list of updates. -/
theorem foldl_run_update_cell_inv (P : List Nat → Prop)
    (hlt : ∀ i, P (ltable i)) (hft : ∀ i, P (freq_table i))
    (hmt : ∀ i, P (mic_status_table i))
    (env : String → List Nat)
    (henv : ∀ cmd, P (read_cmd_output (env cmd)))
    (l : List FieldUpdate) :
    ∀ st : ServerState, (∀ i, P (st.cells i)) →
      ∀ i, P ((l.foldl (fun s u => run_update env s u) st).cells i) := by
  induction l with
  | nil => exact fun st hst => hst
  | cons u us ih =>
      intro st hst
      exact ih _ (run_update_cell_inv P hlt hft hmt env henv st hst u)

/-- A cell-content predicate is preserved by handling one request. -/
theorem handle_received_cell_inv (P : List Nat → Prop)
    (hlt : ∀ i, P (ltable i)) (hft : ∀ i, P (freq_table i))
    (hmt : ∀ i, P (mic_status_table i))
    (env : String → List Nat)
    (henv : ∀ cmd, P (read_cmd_output (env cmd)))
    (st : ServerState) (hst : ∀ i, P (st.cells i)) (id : Nat) :
    ∀ i, P ((handle_received env st id).st.cells i) := by
  unfold handle_received
  split
  · exact run_update_cell_inv P hlt hft hmt env henv st hst _
  · exact hst

/-- A cell-content predicate holds of every cell after the startup pass and
after every handled request, provided it holds of the empty cell, of every
toggler label, and of the captured output of every command under every
environment in effect. -/
theorem runServer_cell_inv (P : List Nat → Prop)
    (hempty : P [])
    (hlt : ∀ i, P (ltable i)) (hft : ∀ i, P (freq_table i))
    (hmt : ∀ i, P (mic_status_table i))
    (env0 : String → List Nat)
    (h0 : ∀ cmd, P (read_cmd_output (env0 cmd)))
    (reqs : List ((String → List Nat) × Nat))
    (hr : ∀ r ∈ reqs, ∀ cmd, P (read_cmd_output (r.1 cmd))) :
    ∀ i, P ((runServer env0 reqs).cells i) := by
  have hinit : ∀ i, P ((init_statusbar env0).1.cells i) := by
    simp only [init_statusbar]
    exact foldl_run_update_cell_inv P hlt hft hmt env0 h0 builtin_updates _
      (foldl_run_update_cell_inv P hlt hft hmt env0 h0 shell_updates _
        (fun _ => hempty))
  simp only [runServer]
  have hfold : ∀ (l : List ((String → List Nat) × Nat)),
      (∀ r ∈ l, ∀ cmd, P (read_cmd_output (r.1 cmd))) →
      ∀ st : ServerState, (∀ i, P (st.cells i)) →
      ∀ i, P ((l.foldl (fun s r => (handle_received r.1 s r.2).st) st).cells i) := by
    intro l
    induction l with
    | nil => exact fun _ st hst => hst
    | cons r rs ih =>
        intro hl st hst
        refine ih (fun q hq => hl q (List.mem_cons_of_mem _ hq)) _ ?_
        exact handle_received_cell_inv P hlt hft hmt r.1
          (hl r (List.mem_cons_self _ _)) st hst r.2
  exact hfold reqs hr _ hinit

end Dwmstatus

namespace Dwmstatus

/-- C2 counterexample: the active range of a cell can contain a newline byte.
Start the server with commands producing no output, then handle request id 1
(the volume shell update) while the command's stdout is two newline bytes:
only the trailing newline is stripped and the volume cell retains the other. -/
theorem interior_newline_reachable :
    10 ∈ (runServer (fun _ => []) [(fun _ => [10, 10], 1)]).cells R_VOL := by
  decide

/-- C2 (amended): at all times — after the startup pass and after every
handled request — every field cell holds at most 255 bytes, for every shell
output and every request sequence; and the active ranges are free of newline
bytes provided every shell output in effect is a single line (contains a
newline at most as its final byte). An output with an interior newline leaves
that newline in the cell, so newline-freeness does not hold unconditionally. -/
theorem cells_length_and_newline_invariant (env0 : String → List Nat)
    (reqs : List ((String → List Nat) × Nat)) :
    (∀ i, ((runServer env0 reqs).cells i).length ≤ 255) ∧
    (lineEnv env0 → (∀ r ∈ reqs, lineEnv r.1) →
      ∀ i, 10 ∉ (runServer env0 reqs).cells i) := by
  constructor
  · exact runServer_cell_inv (fun l => l.length ≤ 255) (by decide)
      (by decide) (by decide) (by decide) env0
      (fun cmd => read_cmd_output_length_le _) reqs
      (fun r _ cmd => read_cmd_output_length_le _)
  · intro h0 hr
    exact runServer_cell_inv (fun l => 10 ∉ l) (by decide)
      (by decide) (by decide) (by decide) env0
      (fun cmd => read_cmd_output_no_newline (h0 cmd)) reqs
      (fun r hrr cmd => read_cmd_output_no_newline (hr r hrr cmd))

/-- Witness for C2's amended theorem: a single-line environment whose
commands output "hi" followed by one newline, with one volume request. -/
theorem cells_length_and_newline_invariant_witness :
    lineEnv (fun _ => [104, 105, 10]) ∧
    (∀ r ∈ [((fun _ => [104, 105, 10] : String → List Nat), 1)], lineEnv r.1) ∧
    (∀ i, ((runServer (fun _ => [104, 105, 10])
      [(fun _ => [104, 105, 10], 1)]).cells i).length ≤ 255) ∧
    (∀ i, 10 ∉ (runServer (fun _ => [104, 105, 10])
      [(fun _ => [104, 105, 10], 1)]).cells i) := by
  have h0 : lineEnv (fun _ => [104, 105, 10]) := by
    intro cmd
    show ∀ b ∈ ([104, 105, 10] : List Nat).dropLast, b ≠ 10
    decide
  have hr : ∀ r ∈ [((fun _ => [104, 105, 10] : String → List Nat), 1)],
      lineEnv r.1 := by
    intro r hrr
    rw [List.mem_singleton] at hrr
    subst hrr
    exact h0
  exact ⟨h0, hr,
    (cells_length_and_newline_invariant _ _).1,
    (cells_length_and_newline_invariant _ _).2 h0 hr⟩

end Dwmstatus

namespace Dwmstatus

/-- A decimal digit character is not whitespace. -/
theorem digit_not_whitespace {c : Char} (h : c.isDigit = true) :
    c.isWhitespace = false := by
  cases hws : c.isWhitespace with
  | false => rfl
  | true =>
      exfalso
      simp only [Char.isWhitespace, Bool.or_eq_true, decide_eq_true_eq] at hws
      rcases hws with ((rfl | rfl) | rfl) | rfl <;>
        exact absurd h (by decide)

/-- A decimal digit character is not the minus sign. -/
theorem digit_not_dash {c : Char} (h : c.isDigit = true) : ¬(c = '-') := by
  rintro rfl
  exact absurd h (by decide)

/-- A decimal digit character is not the plus sign. -/
theorem digit_not_plus {c : Char} (h : c.isDigit = true) : ¬(c = '+') := by
  rintro rfl
  exact absurd h (by decide)

/-- On a nonempty all-digit argument whose value fits in `unsigned long`, the
modelled stoul succeeds with the decimal value: no whitespace is skipped, no
sign is consumed, and the digit prefix is the whole string. -/
theorem stoulModel_digits {s : String} (hne : s.data ≠ [])
    (hdig : ∀ c ∈ s.data, c.isDigit = true)
    (hlt : digitsVal s.data < 2 ^ 64) :
    stoulModel s = .ok (digitsVal s.data) := by
  obtain ⟨c, cs, hcons⟩ := List.exists_cons_of_ne_nil hne
  have hc : c.isDigit = true := hdig c (by rw [hcons]; exact List.mem_cons_self _ _)
  have hdrop : s.data.dropWhile Char.isWhitespace = s.data := by
    rw [hcons, List.dropWhile_cons, if_neg]
    simp [digit_not_whitespace hc]
  have hsign : stripSign s.data = (false, s.data) := by
    rw [hcons]
    simp only [stripSign]
    rw [if_neg (digit_not_dash hc), if_neg (digit_not_plus hc)]
  have htake : s.data.takeWhile Char.isDigit = s.data :=
    List.takeWhile_eq_self_iff.2 hdig
  have hemp : s.data.isEmpty = false := by
    rw [hcons]
    rfl
  simp only [stoulModel, hdrop, hsign, htake, hemp, Bool.false_eq_true,
    if_false]
  rw [if_neg (by omega)]

end Dwmstatus

namespace Dwmstatus

/-- C9 counterexample: the client does not use a datagram socket or sendto.
On argument "3" with all system calls succeeding its trace is: request a
STREAM socket, connect to the socket path, write the 4-byte id, close, exit
0 — and no datagram socket is ever requested. -/
theorem client_uses_stream_socket :
    client_main ["3"] ⟨true, true, true⟩ =
      [.socketCall .stream, .connectCall SOCKET_PATH, .writeCall 3,
        .closeCall, .exitWith 0] ∧
    ClientAction.socketCall SockType.dgram ∉
      client_main ["3"] ⟨true, true, true⟩ := by
  decide

/-- C9 (amended): the client parses its single positional argument with
std::stoul (catching only invalid_argument), opens a Unix-domain STREAM
socket, CONNECTS to the well-known path, and WRITES the 4-byte id (the
parsed value narrowed mod 2^32) in host byte order; it exits 0 on success
and nonzero on usage, socket, connect, parse or write errors; it never
requests a datagram socket and never calls sendto. -/
theorem client_protocol_spec :
    (∀ args env, ClientAction.socketCall SockType.dgram ∉ client_main args env) ∧
    (∀ s v env, stoulModel s = .ok v → env.socket_ok = true →
      env.connect_ok = true → env.write_ok = true →
      client_main [s] env =
        [.socketCall .stream, .connectCall SOCKET_PATH,
          .writeCall (v % 2 ^ 32), .closeCall, .exitWith 0]) ∧
    (∀ args env, args.length ≠ 1 →
      client_main args env = [.printUsage, .exitWith 1]) ∧
    (∀ s env, env.socket_ok = false →
      client_main [s] env =
        [.socketCall .stream, .perrorMsg "socket", .exitWith 1]) ∧
    (∀ s env, env.socket_ok = true → env.connect_ok = false →
      client_main [s] env =
        [.socketCall .stream, .connectCall SOCKET_PATH, .perrorMsg "connect",
          .exitWith 1]) ∧
    (∀ s env, env.socket_ok = true → env.connect_ok = true →
      stoulModel s = .err .invalidArgument →
      client_main [s] env =
        [.socketCall .stream, .connectCall SOCKET_PATH, .printParseErr,
          .exitWith 1]) ∧
    (∀ s v env, stoulModel s = .ok v → env.socket_ok = true →
      env.connect_ok = true → env.write_ok = false →
      client_main [s] env =
        [.socketCall .stream, .connectCall SOCKET_PATH,
          .writeCall (v % 2 ^ 32), .perrorMsg "write", .exitWith 1]) := by
  refine ⟨?_, ?_, ?_, ?_, ?_, ?_, ?_⟩
  · intro args env
    obtain ⟨so, co, wo⟩ := env
    by_cases harg : args.length = 1
    · obtain ⟨a, rfl⟩ := List.length_eq_one.1 harg
      cases so <;> cases co <;> cases wo <;>
        rcases hst : stoulModel a with v | e <;>
        first
          | (cases e <;> simp [client_main, hst])
          | simp [client_main, hst]
    · simp [client_main, harg]
  · intro s v env hst h1 h2 h3
    obtain ⟨so, co, wo⟩ := env
    subst h1; subst h2; subst h3
    simp [client_main, hst]
  · intro args env harg
    simp [client_main, harg]
  · intro s env h1
    obtain ⟨so, co, wo⟩ := env
    subst h1
    simp [client_main]
  · intro s env h1 h2
    obtain ⟨so, co, wo⟩ := env
    subst h1; subst h2
    simp [client_main]
  · intro s env h1 h2 hst
    obtain ⟨so, co, wo⟩ := env
    subst h1; subst h2
    simp [client_main, hst]
  · intro s v env hst h1 h2 h3
    obtain ⟨so, co, wo⟩ := env
    subst h1; subst h2; subst h3
    simp [client_main, hst]

/-- Witness for C9's amended theorem on the success path with argument "3". -/
theorem client_protocol_spec_witness :
    stoulModel "3" = .ok 3 ∧
    client_main ["3"] ⟨true, true, true⟩ =
      [.socketCall .stream, .connectCall SOCKET_PATH,
        .writeCall (3 % 2 ^ 32), .closeCall, .exitWith 0] :=
  ⟨by decide,
   client_protocol_spec.2.1 "3" 3 ⟨true, true, true⟩ (by decide) rfl rfl rfl⟩

/-- C10: an argument that is a plain decimal numeral of value n with
2^32 ≤ n < 2^64 is not reported as a parse failure: std::stoul succeeds (only
std::invalid_argument is caught, and out_of_range starts at 2^64), the result
is narrowed mod 2^32 by the assignment to a 32-bit variable, and the client
writes n mod 2^32 and exits 0. -/
theorem client_large_id_narrowing (s : String) (n : Nat)
    (hne : s.data ≠ [])
    (hdig : ∀ c ∈ s.data, c.isDigit = true)
    (hval : digitsVal s.data = n)
    (hlo : 2 ^ 32 ≤ n) (hhi : n < 2 ^ 64) :
    stoulModel s = .ok n ∧
    client_main [s] ⟨true, true, true⟩ =
      [.socketCall .stream, .connectCall SOCKET_PATH,
        .writeCall (n % 2 ^ 32), .closeCall, .exitWith 0] := by
  have hst : stoulModel s = .ok n := by
    rw [stoulModel_digits hne hdig (by omega), hval]
  exact ⟨hst, by simp [client_main, hst]⟩

/-- Witness for C10 at 2^32 itself: "4294967296" is accepted and the value
sent is 4294967296 mod 2^32 = 0. -/
theorem client_large_id_narrowing_witness :
    "4294967296".data ≠ [] ∧
    (∀ c ∈ "4294967296".data, c.isDigit = true) ∧
    digitsVal "4294967296".data = 4294967296 ∧
    2 ^ 32 ≤ 4294967296 ∧ 4294967296 < 2 ^ 64 ∧
    stoulModel "4294967296" = .ok 4294967296 ∧
    client_main ["4294967296"] ⟨true, true, true⟩ =
      [.socketCall .stream, .connectCall SOCKET_PATH,
        .writeCall (4294967296 % 2 ^ 32), .closeCall, .exitWith 0] := by
  have h := client_large_id_narrowing "4294967296" 4294967296 (by decide)
    (by decide) (by decide) (by decide) (by decide)
  exact ⟨by decide, by decide, by decide, by decide, by decide, h.1, h.2⟩

end Dwmstatus
